import Mathlib

/-!
Verification of the huawei_emma_charger integration core:
the register catalog and decoder (`const.py`, `sensor.py`),
the device-identification reader and sub-device classifier
(`read_device_info.py`), and the derived instantaneous-power sensor
(`sensor.py`).  Python dicts are embedded as insertion-ordered
association lists, Python floats as rationals, and the Modbus client
as a response function supplied to each operation.
-/

/-- Python dict assignment `d[k] = v`: overwrite in place if the key is
present, else append (insertion order preserved). -/
def pyDictSet {κ α : Type} [DecidableEq κ] (d : List (κ × α)) (k : κ) (v : α) :
    List (κ × α) :=
  if d.any (fun p => p.1 = k) then
    d.map (fun p => if p.1 = k then (k, v) else p)
  else
    d ++ [(k, v)]

/-- Python `d.get(k)`: value of the first (unique) entry with key `k`. -/
def pyDictGet? {κ α : Type} [DecidableEq κ] (d : List (κ × α)) (k : κ) :
    Option α :=
  (d.find? (fun p => p.1 = k)).map (fun p => p.2)

/-- Python `d.update(new)`: assign every entry of `new` in order. -/
def pyDictUpdate {κ α : Type} [DecidableEq κ] (d new : List (κ × α)) :
    List (κ × α) :=
  new.foldl (fun acc p => pyDictSet acc p.1 p.2) d

/-- Python `bytes.decode("ascii", errors="ignore")`: keep only bytes
below 128, each becoming the character with that code point. -/
def pyDecodeAscii (bs : List Nat) : List Char :=
  (bs.filter (fun b => b < 128)).map Char.ofNat

/-- Python `str.rstrip("\x00")` on a character list. -/
def rstripNul (cs : List Char) : List Char :=
  (cs.reverse.dropWhile (fun c => c = Char.ofNat 0)).reverse

/-- Bytes to string: ASCII-decode ignoring errors, strip trailing NULs
(`raw_bytes.decode("ascii", errors="ignore").rstrip("\x00")`). -/
def pyDecodeStr (bs : List Nat) : String :=
  String.mk (rstripNul (pyDecodeAscii bs))

/-- Encode a pure-ASCII string as its byte list (test-payload builder). -/
def strBytes (s : String) : List Nat :=
  s.toList.map Char.toNat

/-- Python `int(s)` on a string: optional surrounding whitespace, an
optional sign, then a nonempty run of decimal digits.  `none` models the
`ValueError` raised on any other input. -/
def pyParseInt (s : String) : Option Int :=
  let cs := (s.toList.dropWhile (fun c => c = ' ')).reverse
  let cs := (cs.dropWhile (fun c => c = ' ')).reverse
  let (sign, digits) :=
    match cs with
    | '-' :: rest => ((-1 : Int), rest)
    | '+' :: rest => ((1 : Int), rest)
    | rest => ((1 : Int), rest)
  if digits = [] then none
  else if digits.all (fun c => c.isDigit) then
    some (sign * (digits.foldl (fun a c => a * 10 + (c.toNat - 48)) 0 : Nat))
  else none

/-- Python `str.upper()` on ASCII strings. -/
def pyUpper (s : String) : String :=
  String.mk (s.toList.map Char.toUpper)

/-- One row of `SENSOR_TYPES` / `REGISTER_DEFS` in `const.py`:
`(key, name, address, quantity, type, gain, unit)`. -/
structure RegisterDef where
  key : String
  name : String
  addr : Nat
  qty : Nat
  rtype : String
  gain : ℚ
  unit : String
deriving DecidableEq, Repr

/-- The register catalog `SENSOR_TYPES` from `const.py` (re-exported as
`REGISTER_DEFS`). -/
def REGISTER_DEFS : List RegisterDef :=
  [⟨"offering_name", "Offering name", 30000, 15, "STR", 1, ""⟩,
   ⟨"esn", "ESN", 30015, 16, "STR", 1, ""⟩,
   ⟨"software_version", "Software version", 30031, 16, "STR", 1, ""⟩,
   ⟨"rated_power", "Rated power", 30076, 2, "U32", 10, "kW"⟩,
   ⟨"charger_model", "Charger model", 30078, 14, "STR", 1, ""⟩,
   ⟨"bluetooth_name", "Bluetooth name", 30094, 16, "STR", 1, ""⟩,
   ⟨"phase_a_voltage", "Phase A voltage", 30500, 2, "U32", 10, "V"⟩,
   ⟨"phase_b_voltage", "Phase B voltage", 30502, 2, "U32", 10, "V"⟩,
   ⟨"phase_c_voltage", "Phase C voltage", 30504, 2, "U32", 10, "V"⟩,
   ⟨"total_energy", "Total energy", 30506, 2, "U32", 1000, "kWh"⟩,
   ⟨"charger_temp", "Charger temp.", 30508, 2, "I32", 10, "Â°C"⟩]

/-- Outcome of one `client.read_holding_registers` call: a raised
`ModbusIOException`, an error response (`rr.isError()`), or a register
word list. -/
inductive ReadResult where
  | ioErr : ReadResult
  | modbusErr : ReadResult
  | ok : List Nat → ReadResult
deriving DecidableEq, Repr

/-- A decoded sensor value: decoded string or scaled number. -/
inductive SensorValue where
  | str : String → SensorValue
  | num : ℚ → SensorValue
deriving DecidableEq, Repr

/-- The numeric branch of `_read_all` (sensor.py lines 125-128):
`raw = (regs[0] << 16) | regs[1]`, two's-complement adjustment when the
type is `"I32"` and bit 31 is set, then `raw / gain`. -/
def decode32 (rtype : String) (w0 w1 : Nat) (gain : ℚ) : ℚ :=
  let rawN : Nat := (w0 <<< 16) ||| w1
  let rawZ : Int :=
    if rtype = "I32" ∧ rawN &&& 0x80000000 ≠ 0 then
      (rawN : Int) - ((1 <<< 32 : Nat) : Int)
    else (rawN : Int)
  (rawZ : ℚ) / gain

/-- Loop body of `ModbusChargerDataUpdateCoordinator._read_all`
(sensor.py lines 104-133), accumulating the `data` dict.  Each register
definition triggers one `read_holding_registers(addr, count=qty,
slave=slave)`; `ModbusIOException` and error responses skip the entry
(`continue`); `"STR"` registers decode all words' big-endian bytes as a
stripped ASCII string; all other types decode via `decode32` from
`regs[0]` and `regs[1]` — fewer than two words raises an uncaught
`IndexError`, modelled as `Except.error`, aborting the cycle. -/
def read_all_go (slave : Nat) (client : Nat → Nat → Nat → ReadResult)
    (acc : List (String × (SensorValue × String))) :
    List RegisterDef → Except Unit (List (String × (SensorValue × String)))
  | [] => Except.ok acc
  | d :: rest =>
    match client slave d.addr d.qty with
    | ReadResult.ioErr => read_all_go slave client acc rest
    | ReadResult.modbusErr => read_all_go slave client acc rest
    | ReadResult.ok regs =>
      if d.rtype = "STR" then
        let bytes := regs.flatMap (fun r => [(r >>> 8) &&& 0xFF, r &&& 0xFF])
        read_all_go slave client
          (pyDictSet acc d.key (SensorValue.str (pyDecodeStr bytes), d.unit)) rest
      else
        match regs with
        | w0 :: w1 :: _ =>
          read_all_go slave client
            (pyDictSet acc d.key
              (SensorValue.num (decode32 d.rtype w0 w1 d.gain), d.unit)) rest
        | _ => Except.error ()

/-- `_read_all` over a register catalog: start from an empty `data`
dict and process every definition in catalog order. -/
def read_all (slave : Nat) (defs : List RegisterDef)
    (client : Nat → Nat → Nat → ReadResult) :
    Except Unit (List (String × (SensorValue × String))) :=
  read_all_go slave client [] defs

/-- The keys of a cycle's result map, in insertion order (empty on an
aborted cycle). -/
def keysOf (r : Except Unit (List (String × (SensorValue × String)))) :
    List String :=
  match r with
  | Except.ok m => m.map Prod.fst
  | Except.error _ => []

/-- Outcome of one `client.read_device_information` call in
`read_device_info.py`: a raised `ModbusIOException`, an
`ExceptionResponse`/error response, or a page carrying an
`information` dict, the `more_follows` flag and the `next_object_id`. -/
inductive DevIdResp where
  | ioErr : DevIdResp
  | errResp : DevIdResp
  | ok : List (Nat × List Nat) → Bool → Nat → DevIdResp

/-- How `read_device_list` fails: `ConnectionError` on a missing
response, `ModbusException` on an error response, `ValueError` when the
merged catalog has no root object id 0x87, and fuel exhaustion standing
in for a device that pages forever (`while True` in the source). -/
inductive DiscError where
  | connectionError : DiscError
  | modbusError : DiscError
  | missingRoot : DiscError
  | fuelOut : DiscError
deriving DecidableEq, Repr

/-- Python `int.from_bytes(bs, byteorder="big")`. -/
def intFromBytesBE (bs : List Nat) : Nat :=
  bs.foldl (fun a b => a * 256 + b) 0

/-- The paging loop of `read_device_list` (read_device_info.py lines
34-53): request the current object id, fail the whole call on a missing
response or an error response, otherwise merge the page's
`information` dict into the accumulator and continue at
`next_object_id` while `more_follows` is set.  `fuel` bounds the
number of requests. -/
def read_pages (device : Nat → DevIdResp) :
    Nat → Nat → List (Nat × List Nat) →
    Except DiscError (List (Nat × List Nat))
  | 0, _, _ => Except.error DiscError.fuelOut
  | fuel + 1, oid, acc =>
    match device oid with
    | DevIdResp.ioErr => Except.error DiscError.connectionError
    | DevIdResp.errResp => Except.error DiscError.modbusError
    | DevIdResp.ok info more next =>
      let acc2 := pyDictUpdate acc info
      if more then read_pages device fuel next acc2 else Except.ok acc2

/-- `read_device_list` (read_device_info.py lines 12-61): page starting
at object id 0x87, then require the root object id in the merged
catalog and interpret its payload as a big-endian device count. -/
def read_device_list (device : Nat → DevIdResp) (fuel : Nat) :
    Except DiscError (Nat × List (Nat × List Nat)) :=
  match read_pages device fuel 0x87 [] with
  | Except.error e => Except.error e
  | Except.ok all_info =>
    match pyDictGet? all_info 0x87 with
    | none => Except.error DiscError.missingRoot
    | some raw => Except.ok (intFromBytesBE raw, all_info)

/-- Python `str.split(sep)` for a one-character separator: split on
every occurrence, preserving empty pieces. -/
def splitOnChar (sep : Char) : List Char → List (List Char)
  | [] => [[]]
  | c :: rest =>
    let r := splitOnChar sep rest
    if c = sep then [] :: r
    else
      match r with
      | h :: t => (c :: h) :: t
      | [] => [[c]]

/-- `parse_device_description` (read_device_info.py lines 64-85):
ASCII-decode ignoring errors, strip trailing NULs, split on `;`, skip
pairs without `=`, split each pair at the first `=`, parse the key as an
integer (skipping on `ValueError`) and assign into the attribute dict. -/
def parse_device_description (desc_bytes : List Nat) : List (Int × String) :=
  let desc_str := rstripNul (pyDecodeAscii desc_bytes)
  (splitOnChar ';' desc_str).foldl
    (fun attrs pair =>
      if pair.any (fun c => c = '=') then
        let k := String.mk (pair.takeWhile (fun c => c ≠ '='))
        let v := String.mk ((pair.dropWhile (fun c => c ≠ '=')).drop 1)
        match pyParseInt k with
        | some ki => pyDictSet attrs ki v
        | none => attrs
      else attrs)
    []

/-- One classified charger sub-device, as appended by
`identify_subdevices`: object id, parsed attributes, slave id. -/
structure Charger where
  obj_id : Nat
  attrs : List (Int × String)
  slave_id : Int
deriving DecidableEq, Repr

/-- The classification loop of `identify_subdevices`
(read_device_info.py lines 101-113): skip the root object id, parse
each payload, keep records whose attribute 8 upper-cases to
`"CHARGER"` and whose attribute 5 parses as an integer slave id;
records failing the slave-id parse are skipped with a warning. -/
def classify_chargers : List (Nat × List Nat) → List Charger
  | [] => []
  | (oid, raw) :: rest =>
    if oid = 0x87 then classify_chargers rest
    else
      let attrs := parse_device_description raw
      if pyUpper ((pyDictGet? attrs 8).getD "") = "CHARGER" then
        match ((pyDictGet? attrs 5).bind pyParseInt) with
        | some sid => ⟨oid, attrs, sid⟩ :: classify_chargers rest
        | none => classify_chargers rest
      else classify_chargers rest

/-- `identify_subdevices` (read_device_info.py lines 88-117): read the
device list, then classify the catalog's records. -/
def identify_subdevices (device : Nat → DevIdResp) (fuel : Nat) :
    Except DiscError (List Charger) :=
  match read_device_list device fuel with
  | Except.error e => Except.error e
  | Except.ok (_, info) => Except.ok (classify_chargers info)

/-- The persistent state of `ModbusChargerPowerSensor`:
`_prev_energy` (kWh) and `_prev_time` (seconds). -/
structure PowerState where
  prev_energy : Option ℚ
  prev_time : Option ℚ
deriving DecidableEq, Repr

/-- Python 3 `round` to an integer: round half to even. -/
def roundHalfEven (q : ℚ) : Int :=
  let f := ⌊q⌋
  let r := q - f
  if r < 1 / 2 then f
  else if 1 / 2 < r then f + 1
  else if Even f then f else f + 1

/-- Python `round(q, 2)`. -/
def pyRound2 (q : ℚ) : ℚ :=
  (roundHalfEven (q * 100) : ℚ) / 100

/-- `ModbusChargerPowerSensor.native_value` (sensor.py lines 220-248)
as a state transition: given the coordinator's `total_energy` entry (in
kWh) and the current time (in seconds), return the emitted value and
the updated `(_prev_energy, _prev_time)` state.  On the first reading
the state is initialized and nothing is emitted; a non-positive time
delta emits nothing and leaves the state unchanged; otherwise the power
is `delta_energy / delta_hours`, the state is overwritten, and the
rounded power is emitted. -/
def native_value (st : PowerState) (entry : Option ℚ) (now : ℚ) :
    Option ℚ × PowerState :=
  match entry with
  | none => (none, st)
  | some current_energy =>
    match st.prev_energy, st.prev_time with
    | some prev_e, some prev_t =>
      let delta_hours := (now - prev_t) / 3600
      if delta_hours ≤ 0 then (none, st)
      else
        let delta_energy := current_energy - prev_e
        let power := delta_energy / delta_hours
        (some (pyRound2 power), ⟨some current_energy, some now⟩)
    | _, _ => (none, ⟨some current_energy, some now⟩)

/-- Spec-side reading of a 32-bit pattern as a two's-complement
integer. -/
def twosComplement32 (n : Nat) : Int :=
  if n < 2 ^ 31 then (n : Int) else (n : Int) - 2 ^ 32

/-- Concrete three-page device used by the C4 witness. -/
def devW : Nat → DevIdResp := fun oid =>
  if oid = 0x87 then
    DevIdResp.ok [(0x87, [0, 2]), (0x88, strBytes "5=83;8=CHARGER")] true 0x89
  else if oid = 0x89 then DevIdResp.ok [(0x89, strBytes "1=X")] true 0x8A
  else if oid = 0x8A then DevIdResp.ok [(0x8A, strBytes "8=METER")] false 0
  else DevIdResp.ioErr

/-- Whether a read attempt produced a register list. -/
def respOk : ReadResult → Bool
  | ReadResult.ok _ => true
  | _ => false

/-- A response shape that `_read_all` can process without raising: a
failed read is skipped, and a successful read must either belong to a
string register or carry at least the two words `regs[0]`, `regs[1]`. -/
def adequate (d : RegisterDef) : ReadResult → Prop
  | ReadResult.ok regs => d.rtype = "STR" ∨ 2 ≤ regs.length
  | _ => True

/-- A client whose every read succeeds with a zero-filled register
block of the requested quantity. -/
def clientAll : Nat → Nat → Nat → ReadResult := fun _ _ qty =>
  ReadResult.ok (List.replicate qty 0)

/-- A client that returns a Modbus error response for the rated-power
block at address 30076 and zero-filled data everywhere else. -/
def clientC6 : Nat → Nat → Nat → ReadResult := fun _ addr qty =>
  if addr = 30076 then ReadResult.modbusErr
  else ReadResult.ok (List.replicate qty 0)

/-- A register definition with a value type not among `"STR"`, `"U32"`,
`"I32"`. -/
def unknownTypeDef : RegisterDef := ⟨"mystery", "Mystery", 40000, 2, "F32", 1, ""⟩

/-- A client answering every read with the two words `[1, 0x86A0]`. -/
def clientF32 : Nat → Nat → Nat → ReadResult := fun _ _ _ =>
  ReadResult.ok [1, 0x86A0]

lemma testBit31_true_iff {n : Nat} (h : n < 2 ^ 32) :
    n.testBit 31 = true ↔ 2 ^ 31 ≤ n := by
  constructor
  · intro hb
    exact Nat.testBit_implies_ge hb
  · intro hge
    rw [Nat.testBit_to_div_mod]
    have h2 : n / 2 ^ 31 < 2 := by
      rw [Nat.div_lt_iff_lt_mul (by positivity)]
      omega
    have h1 : 1 ≤ n / 2 ^ 31 := by
      rw [Nat.le_div_iff_mul_le (by positivity)]
      simpa using hge
    have h3 : n / 2 ^ 31 = 1 := by omega
    norm_num at h3
    simp [h3]

lemma and_bit31_ne_zero_iff {n : Nat} (h : n < 2 ^ 32) :
    n &&& 0x80000000 ≠ 0 ↔ 2 ^ 31 ≤ n := by
  have e : (0x80000000 : Nat) = 2 ^ 31 := by norm_num
  rw [e, Nat.and_two_pow, ← testBit31_true_iff h]
  rcases hb : n.testBit 31 <;> simp [hb]

lemma combined_lt {w0 w1 : Nat} (h0 : w0 < 2 ^ 16) (h1 : w1 < 2 ^ 16) :
    (w0 <<< 16) ||| w1 < 2 ^ 32 := by
  apply Nat.or_lt_two_pow
  · rw [Nat.shiftLeft_eq]
    calc w0 * 2 ^ 16 < 2 ^ 16 * 2 ^ 16 := by
          exact mul_lt_mul_of_pos_right h0 (by positivity)
      _ = 2 ^ 32 := by norm_num
  · calc w1 < 2 ^ 16 := h1
      _ ≤ 2 ^ 32 := by norm_num

lemma decode32_u32 (w0 w1 : Nat) (g : ℚ) :
    decode32 "U32" w0 w1 g = (((w0 <<< 16) ||| w1 : Nat) : ℚ) / g := by
  simp [decode32]

lemma decode32_i32 (w0 w1 : Nat) (g : ℚ) (h0 : w0 < 2 ^ 16)
    (h1 : w1 < 2 ^ 16) :
    decode32 "I32" w0 w1 g =
      ((twosComplement32 ((w0 <<< 16) ||| w1) : Int) : ℚ) / g := by
  have hlt := combined_lt h0 h1
  by_cases hge : 2 ^ 31 ≤ (w0 <<< 16) ||| w1
  · have hc := (and_bit31_ne_zero_iff hlt).mpr hge
    simp only [decode32, twosComplement32, true_and]
    rw [if_pos hc, if_neg (by omega)]
    norm_num [Nat.shiftLeft_eq]
  · have hc : ¬((w0 <<< 16) ||| w1) &&& 0x80000000 ≠ 0 := fun hn =>
      hge ((and_bit31_ne_zero_iff hlt).mp hn)
    simp only [decode32, twosComplement32, true_and]
    rw [if_neg hc, if_pos (by omega)]

/-- C7: decoding two words as UNSIGNED32 yields `((word0 << 16) |
word1) / scale`, a non-negative value; decoding as SIGNED32 interprets
the same 32-bit combination as two's complement (word0 high) before
dividing by the scale, and is negative when the sign bit is set (scale
1); words `[0x0001, 0x86A0]` decode to 100000 at scale 1 and to 100 at
scale 1000. -/
theorem decode32_unsigned_signed_spec :
    (∀ w0 w1 : Nat, ∀ g : ℚ, 0 < g →
      decode32 "U32" w0 w1 g = (((w0 <<< 16) ||| w1 : Nat) : ℚ) / g ∧
      0 ≤ decode32 "U32" w0 w1 g) ∧
    (∀ w0 w1 : Nat, ∀ g : ℚ, w0 < 2 ^ 16 → w1 < 2 ^ 16 →
      decode32 "I32" w0 w1 g =
        ((twosComplement32 ((w0 <<< 16) ||| w1) : Int) : ℚ) / g) ∧
    (∀ w0 w1 : Nat, 2 ^ 15 ≤ w0 → w0 < 2 ^ 16 → w1 < 2 ^ 16 →
      decode32 "I32" w0 w1 1 < 0) ∧
    decode32 "U32" 0x0001 0x86A0 1 = 100000 ∧
    decode32 "U32" 0x0001 0x86A0 1000 = 100 := by
  refine ⟨fun w0 w1 g hg => ⟨decode32_u32 w0 w1 g, ?_⟩,
    fun w0 w1 g h0 h1 => decode32_i32 w0 w1 g h0 h1, ?_, ?_, ?_⟩
  · rw [decode32_u32]
    exact div_nonneg (by positivity) (le_of_lt hg)
  · intro w0 w1 hs h0 h1
    rw [decode32_i32 w0 w1 1 h0 h1]
    have hor : 2 ^ 31 ≤ (w0 <<< 16) ||| w1 := by
      have hsh : 2 ^ 31 ≤ w0 <<< 16 := by
        rw [Nat.shiftLeft_eq]
        calc (2 : Nat) ^ 31 = 2 ^ 15 * 2 ^ 16 := by norm_num
          _ ≤ w0 * 2 ^ 16 := Nat.mul_le_mul_right _ hs
      calc (2 : Nat) ^ 31 ≤ w0 <<< 16 := hsh
        _ ≤ (w0 <<< 16) ||| w1 := Nat.le_of_testBit (by
            intro i hi
            rw [Nat.testBit_lor, hi]
            simp)
    have hlt := combined_lt h0 h1
    unfold twosComplement32
    rw [if_neg (by omega), div_one]
    have hz : ((w0 <<< 16) ||| w1 : Int) - 2 ^ 32 < 0 := by
      have hc : ((w0 <<< 16) ||| w1 : Int) < 2 ^ 32 := by exact_mod_cast hlt
      omega
    exact_mod_cast hz
  · rw [decode32_u32]
    have e : (1 <<< 16 ||| 34464 : ℕ) = 100000 := by decide
    rw [e]
    norm_num
  · rw [decode32_u32]
    have e : (1 <<< 16 ||| 34464 : ℕ) = 100000 := by decide
    rw [e]
    norm_num

/-- C4: the reader starts at root object id 0x87 and, while more data
follows, repeats the request with the response's next object id,
merging all page payloads into one mapping (three pages need exactly
three requests, i.e. fuel 3 suffices); a transport error or Modbus
error on any page fails the whole call with no partial catalog; a
merged catalog without the root object id fails; otherwise the root
payload read as a big-endian integer is the returned device count. -/
theorem read_device_list_paging_spec :
    (∀ (device : Nat → DevIdResp) (p0 p1 p2 : List (Nat × List Nat))
        (o1 o2 o3 n : Nat),
      device 0x87 = DevIdResp.ok p0 true o1 →
      device o1 = DevIdResp.ok p1 true o2 →
      device o2 = DevIdResp.ok p2 false o3 →
      read_pages device (n + 3) 0x87 [] =
        Except.ok (pyDictUpdate (pyDictUpdate (pyDictUpdate [] p0) p1) p2)) ∧
    (∀ (device : Nat → DevIdResp) (n : Nat),
      device 0x87 = DevIdResp.ioErr →
      read_device_list device (n + 1) =
        Except.error DiscError.connectionError) ∧
    (∀ (device : Nat → DevIdResp) (p0 : List (Nat × List Nat)) (o1 n : Nat),
      device 0x87 = DevIdResp.ok p0 true o1 →
      device o1 = DevIdResp.errResp →
      read_device_list device (n + 2) = Except.error DiscError.modbusError) ∧
    (∀ (device : Nat → DevIdResp) (fuel : Nat)
        (all_info : List (Nat × List Nat)),
      read_pages device fuel 0x87 [] = Except.ok all_info →
      pyDictGet? all_info 0x87 = none →
      read_device_list device fuel = Except.error DiscError.missingRoot) ∧
    (∀ (device : Nat → DevIdResp) (fuel : Nat)
        (all_info : List (Nat × List Nat)) (raw : List Nat),
      read_pages device fuel 0x87 [] = Except.ok all_info →
      pyDictGet? all_info 0x87 = some raw →
      read_device_list device fuel =
        Except.ok (intFromBytesBE raw, all_info)) := by
  refine ⟨?_, ?_, ?_, ?_, ?_⟩
  · intro device p0 p1 p2 o1 o2 o3 n h0 h1 h2
    simp [read_pages, h0, h1, h2]
  · intro device n h0
    simp [read_device_list, read_pages, h0]
  · intro device p0 o1 n h0 h1
    simp [read_device_list, read_pages, h0, h1]
  · intro device fuel all_info hp hg
    simp [read_device_list, hp, hg]
  · intro device fuel all_info raw hp hg
    simp [read_device_list, hp, hg]

/-- Witness for C4: three pages merge with three requests and the root
payload `[0, 2]` reports two devices. -/
theorem read_device_list_paging_spec_witness :
    read_device_list devW 3 =
      Except.ok (2, [(0x87, [0, 2]), (0x88, strBytes "5=83;8=CHARGER"),
        (0x89, strBytes "1=X"), (0x8A, strBytes "8=METER")]) := by
  have h := read_device_list_paging_spec
  have h1 := h.1 devW _ _ _ 0x89 0x8A 0 0 rfl rfl rfl
  exact (h.2.2.2.2 devW 3 _ [0, 2] h1 (by rfl)).trans (by rfl)

/-- C5: a catalog record classifies as a charger exactly when it is
non-root, its attribute 8 upper-cases to `"CHARGER"`, and its attribute
5 parses as an integer slave address; records with missing or
non-numeric attribute 5 are discarded without failing, malformed pairs
are skipped, and an empty result is a valid outcome. -/
theorem classify_chargers_spec :
    (∀ (info : List (Nat × List Nat)) (c : Charger),
      c ∈ classify_chargers info ↔
        ∃ oid raw sid, (oid, raw) ∈ info ∧ oid ≠ 0x87 ∧
          pyUpper ((pyDictGet? (parse_device_description raw) 8).getD "") =
            "CHARGER" ∧
          ((pyDictGet? (parse_device_description raw) 5).bind pyParseInt) =
            some sid ∧
          c = ⟨oid, parse_device_description raw, sid⟩) ∧
    classify_chargers [(0x90, strBytes "5=83;8=CHARGER;1=EMMA-A02")] =
      [⟨0x90, [(5, "83"), (8, "CHARGER"), (1, "EMMA-A02")], 83⟩] ∧
    classify_chargers [(0x90, strBytes "5=83;1=EMMA-A02")] = [] ∧
    classify_chargers [(0x90, strBytes "5=83;8=METER;1=EMMA-A02")] = [] ∧
    classify_chargers [(0x90, strBytes "5=abc;8=CHARGER")] = [] ∧
    classify_chargers [(0x90, strBytes "8=ChArGeR;5=42;zzz;x")] =
      [⟨0x90, [(8, "ChArGeR"), (5, "42")], 42⟩] ∧
    classify_chargers [] = [] := by
  refine ⟨?_, by decide, by decide, by decide, by decide, by decide, by decide⟩
  intro info c
  induction info with
  | nil => simp [classify_chargers]
  | cons p rest ih =>
    obtain ⟨oid, raw⟩ := p
    by_cases h87 : oid = 0x87
    · simp only [classify_chargers]
      rw [if_pos h87]
      constructor
      · intro hmem
        obtain ⟨o, r, s, hm, h1, h2, h3, h4⟩ := ih.mp hmem
        exact ⟨o, r, s, List.mem_cons_of_mem _ hm, h1, h2, h3, h4⟩
      · rintro ⟨o, r, s, hm, h1, h2, h3, h4⟩
        rcases List.mem_cons.mp hm with he | hm2
        · rw [Prod.mk.injEq] at he
          exact absurd (he.1.trans h87) h1
        · exact ih.mpr ⟨o, r, s, hm2, h1, h2, h3, h4⟩
    · by_cases hch :
        pyUpper ((pyDictGet? (parse_device_description raw) 8).getD "") =
          "CHARGER"
      · rcases hsid : ((pyDictGet? (parse_device_description raw) 5).bind
            pyParseInt) with _ | sid
        · simp only [classify_chargers]
          rw [if_neg h87, if_pos hch]
          simp only [hsid]
          constructor
          · intro hmem
            obtain ⟨o, r, s, hm, h1, h2, h3, h4⟩ := ih.mp hmem
            exact ⟨o, r, s, List.mem_cons_of_mem _ hm, h1, h2, h3, h4⟩
          · rintro ⟨o, r, s, hm, h1, h2, h3, h4⟩
            rcases List.mem_cons.mp hm with he | hm2
            · rw [Prod.mk.injEq] at he
              rw [he.2] at h3
              rw [hsid] at h3
              exact Option.noConfusion h3
            · exact ih.mpr ⟨o, r, s, hm2, h1, h2, h3, h4⟩
        · simp only [classify_chargers]
          rw [if_neg h87, if_pos hch]
          simp only [hsid]
          constructor
          · intro hmem
            rcases List.mem_cons.mp hmem with hc | hm2
            · exact ⟨oid, raw, sid, List.mem_cons_self _ _, h87, hch, hsid, hc⟩
            · obtain ⟨o, r, s, hm, h1, h2, h3, h4⟩ := ih.mp hm2
              exact ⟨o, r, s, List.mem_cons_of_mem _ hm, h1, h2, h3, h4⟩
          · rintro ⟨o, r, s, hm, h1, h2, h3, h4⟩
            rcases List.mem_cons.mp hm with he | hm2
            · rw [Prod.mk.injEq] at he
              rw [he.2] at h3
              rw [hsid] at h3
              have hs : sid = s := Option.some.inj h3
              rw [h4, he.1, he.2, ← hs]
              exact List.mem_cons_self _ _
            · exact List.mem_cons_of_mem _
                (ih.mpr ⟨o, r, s, hm2, h1, h2, h3, h4⟩)
      · simp only [classify_chargers]
        rw [if_neg h87, if_neg hch]
        constructor
        · intro hmem
          obtain ⟨o, r, s, hm, h1, h2, h3, h4⟩ := ih.mp hmem
          exact ⟨o, r, s, List.mem_cons_of_mem _ hm, h1, h2, h3, h4⟩
        · rintro ⟨o, r, s, hm, h1, h2, h3, h4⟩
          rcases List.mem_cons.mp hm with he | hm2
          · rw [Prod.mk.injEq] at he
            rw [he.2] at h2
            exact absurd h2 hch
          · exact ih.mpr ⟨o, r, s, hm2, h1, h2, h3, h4⟩

lemma native_value_some (pe pt c now : ℚ) (h : 0 < now - pt) :
    native_value ⟨some pe, some pt⟩ (some c) now =
      (some (pyRound2 ((c - pe) / ((now - pt) / 3600))),
        ⟨some c, some now⟩) := by
  simp only [native_value]
  rw [if_neg (not_le.mpr (div_pos h (by norm_num)))]

lemma roundHalfEven_nonpos {q : ℚ} (h : q < 0) : roundHalfEven q ≤ 0 := by
  have hf : ⌊q⌋ < 0 := by
    by_contra hc
    push_neg at hc
    have hq : (0 : ℚ) ≤ q := le_trans (by exact_mod_cast hc) (Int.floor_le q)
    linarith
  simp only [roundHalfEven]
  split_ifs <;> omega

lemma roundHalfEven_eq_low (q : ℚ) (n : Int) (h1 : (n : ℚ) ≤ q)
    (h2 : q - n < 1 / 2) : roundHalfEven q = n := by
  have hf : ⌊q⌋ = n := Int.floor_eq_iff.mpr ⟨h1, by linarith⟩
  simp only [roundHalfEven, hf]
  rw [if_pos h2]

lemma pyRound2_eq (q : ℚ) (n : Int) (h1 : (n : ℚ) ≤ q * 100)
    (h2 : q * 100 - n < 1 / 2) : pyRound2 q = (n : ℚ) / 100 := by
  unfold pyRound2
  rw [roundHalfEven_eq_low (q * 100) n h1 h2]

lemma pyRound2_nonpos {q : ℚ} (h : q < 0) : pyRound2 q ≤ 0 := by
  unfold pyRound2
  have h100 : q * 100 < 0 := by linarith
  have := roundHalfEven_nonpos h100
  have hcast : (roundHalfEven (q * 100) : ℚ) ≤ 0 := by exact_mod_cast this
  linarith

lemma pyRound2_zero : pyRound2 0 = 0 := by
  rw [pyRound2_eq 0 0 (by norm_num) (by norm_num)]
  norm_num

/-- C2 fails on the code: a cumulative-energy drop from 100.5 to 99.0
kWh over 30 seconds emits power -180 kW — the delta is not clamped to 0
and the emitted power is negative. -/
theorem power_negative_counterexample :
    (native_value ⟨some (201 / 2), some 0⟩ (some 99) 30).1 = some (-180) ∧
    (-180 : ℚ) < 0 := by
  constructor
  · rw [native_value_some (201 / 2) 0 99 30 (by norm_num)]
    rw [(by norm_num :
      ((99 : ℚ) - 201 / 2) / (((30 : ℚ) - 0) / 3600) = -180)]
    rw [pyRound2_eq (-180) (-18000) (by norm_num) (by norm_num)]
    norm_num
  · norm_num

/-- C2 amended: the code does not clamp a negative energy delta; with
positive elapsed time it emits `round(delta / elapsed_hours, 2)`, whose
unrounded value is negative and whose rounded value is non-positive
whenever the current energy is below the stored previous energy. -/
theorem power_no_clamp_amended (pe pt c now : ℚ) (ht : 0 < now - pt)
    (hd : c < pe) :
    (native_value ⟨some pe, some pt⟩ (some c) now).1 =
      some (pyRound2 ((c - pe) / ((now - pt) / 3600))) ∧
    (c - pe) / ((now - pt) / 3600) < 0 ∧
    pyRound2 ((c - pe) / ((now - pt) / 3600)) ≤ 0 := by
  have hq : (c - pe) / ((now - pt) / 3600) < 0 :=
    div_neg_of_neg_of_pos (by linarith) (div_pos ht (by norm_num))
  exact ⟨by rw [native_value_some pe pt c now ht], hq, pyRound2_nonpos hq⟩

/-- Witness for C2's amended theorem at energies 100.5 → 99.0 kWh over
30 seconds. -/
theorem power_no_clamp_amended_witness :
    (0 : ℚ) < 30 - 0 ∧ (99 : ℚ) < 201 / 2 ∧
    ((native_value ⟨some (201 / 2), some 0⟩ (some 99) 30).1 =
      some (pyRound2 ((99 - 201 / 2) / ((30 - 0) / 3600))) ∧
    (99 - 201 / 2 : ℚ) / ((30 - 0) / 3600) < 0 ∧
    pyRound2 ((99 - 201 / 2) / ((30 - 0) / 3600)) ≤ 0) :=
  ⟨by norm_num, by norm_num,
    power_no_clamp_amended (201 / 2) 0 99 30 (by norm_num) (by norm_num)⟩

/-- C3 fails on the code: after a tick deriving 10 kW, a zero-delta
tick emits 0, not the previously derived non-zero power — no
`lastNonZeroPower` is stored or held. -/
theorem power_hold_counterexample :
    (native_value ⟨some 10, some 0⟩ (some (101 / 10)) 36).1 = some 10 ∧
    (native_value (native_value ⟨some 10, some 0⟩ (some (101 / 10)) 36).2
        (some (101 / 10)) 72).1 = some 0 ∧
    (0 : ℚ) ≠ 10 := by
  refine ⟨?_, ?_, by norm_num⟩
  · simp [native_value, pyRound2, roundHalfEven]
    norm_num
  · simp [native_value, pyRound2, roundHalfEven]
    norm_num

/-- C3 amended: whenever the energy delta is not strictly positive
(with positive elapsed time), the emitted power is recomputed as
`round(delta / elapsed_hours, 2)` — zero for a zero delta, never a held
prior value — and the stored state is exactly the current energy and
timestamp; no last non-zero power is kept. -/
theorem power_recompute_amended (pe pt c now : ℚ) (ht : 0 < now - pt)
    (_hle : c ≤ pe) :
    (native_value ⟨some pe, some pt⟩ (some c) now).1 =
      some (pyRound2 ((c - pe) / ((now - pt) / 3600))) ∧
    (c = pe → (native_value ⟨some pe, some pt⟩ (some c) now).1 = some 0) ∧
    (native_value ⟨some pe, some pt⟩ (some c) now).2 =
      ⟨some c, some now⟩ := by
  refine ⟨by rw [native_value_some pe pt c now ht], ?_,
    by rw [native_value_some pe pt c now ht]⟩
  intro he
  rw [native_value_some pe pt c now ht, he]
  simp [pyRound2_zero]

/-- Witness for C3's amended theorem at a flat energy of 100 kWh over
30 seconds. -/
theorem power_recompute_amended_witness :
    (0 : ℚ) < 30 - 0 ∧ (100 : ℚ) ≤ 100 ∧
    ((native_value ⟨some 100, some 0⟩ (some 100) 30).1 =
      some (pyRound2 ((100 - 100) / ((30 - 0) / 3600))) ∧
    ((100 : ℚ) = 100 →
      (native_value ⟨some 100, some 0⟩ (some 100) 30).1 = some 0) ∧
    (native_value ⟨some 100, some 0⟩ (some 100) 30).2 =
      ⟨some 100, some 30⟩) :=
  ⟨by norm_num, by norm_num,
    power_recompute_amended 100 0 100 30 (by norm_num) (by norm_num)⟩

/-- C9 fails on the code: the emitted power is rounded to 2 decimal
places, not 3 (a true power of 1.2345 kW emits 1.23, which no 3-decimal
rounding produces), and energies 10.0 → 10.2 kWh taken 60 seconds apart
derive 12 kW, not 1.2 kW. -/
theorem power_round_counterexample :
    (native_value ⟨some 10, some 0⟩ (some (51 / 5)) 60).1 = some 12 ∧
    (12 : ℚ) ≠ 6 / 5 ∧
    (native_value ⟨some 0, some 0⟩ (some (2469 / 2000)) 3600).1 =
      some (123 / 100) ∧
    (123 / 100 : ℚ) ≠ 1234 / 1000 ∧ (123 / 100 : ℚ) ≠ 1235 / 1000 := by
  refine ⟨?_, by norm_num, ?_, by norm_num, by norm_num⟩
  · simp [native_value, pyRound2, roundHalfEven]
    norm_num
  · rw [native_value_some 0 0 (2469 / 2000) 3600 (by norm_num)]
    rw [(by norm_num :
      ((2469 / 2000 : ℚ) - 0) / (((3600 : ℚ) - 0) / 3600) = 2469 / 2000)]
    rw [pyRound2_eq (2469 / 2000) 123 (by norm_num) (by norm_num)]
    norm_num

/-- C9 amended: every emitted power is rounded to 2 decimal places, and
energies 10.0 → 10.2 kWh taken 60 seconds apart derive 12 kW. -/
theorem power_round2_amended (pe pt c now : ℚ) (ht : 0 < now - pt) :
    (native_value ⟨some pe, some pt⟩ (some c) now).1 =
      some (pyRound2 ((c - pe) / ((now - pt) / 3600))) ∧
    (native_value ⟨some 10, some 0⟩ (some (51 / 5)) 60).1 = some 12 := by
  constructor
  · rw [native_value_some pe pt c now ht]
  · simp [native_value, pyRound2, roundHalfEven]
    norm_num

/-- Witness for C9's amended theorem at energies 10.0 → 10.2 kWh over
60 seconds. -/
theorem power_round2_amended_witness :
    (0 : ℚ) < 60 - 0 ∧
    ((native_value ⟨some 10, some 0⟩ (some (51 / 5)) 60).1 =
      some (pyRound2 ((51 / 5 - 10) / ((60 - 0) / 3600))) ∧
    (native_value ⟨some 10, some 0⟩ (some (51 / 5)) 60).1 = some 12) :=
  ⟨by norm_num, power_round2_amended 10 0 (51 / 5) 60 (by norm_num)⟩

/-- C10: evaluating the power value is not idempotent — an evaluation
with positive elapsed time overwrites the stored previous energy and
timestamp, so re-evaluating the same cycle's energy at a later time
computes a zero delta and emits 0 instead of the first evaluation's
value `round(delta / elapsed_hours, 2)`. -/
theorem power_not_idempotent (pe pt c now now2 : ℚ) (h1 : 0 < now - pt)
    (h2 : 0 < now2 - now) :
    (native_value ⟨some pe, some pt⟩ (some c) now).2 =
      ⟨some c, some now⟩ ∧
    (native_value (native_value ⟨some pe, some pt⟩ (some c) now).2
        (some c) now2).1 = some 0 ∧
    (native_value ⟨some pe, some pt⟩ (some c) now).1 =
      some (pyRound2 ((c - pe) / ((now - pt) / 3600))) := by
  refine ⟨by rw [native_value_some pe pt c now h1], ?_,
    by rw [native_value_some pe pt c now h1]⟩
  rw [native_value_some pe pt c now h1]
  rw [native_value_some c now c now2 h2]
  simp [pyRound2_zero]

/-- Witness for C10 at energies 10.0 → 10.2 kWh read at t = 60 s and
re-evaluated at t = 120 s. -/
theorem power_not_idempotent_witness :
    (0 : ℚ) < 60 - 0 ∧ (0 : ℚ) < 120 - 60 ∧
    ((native_value ⟨some 10, some 0⟩ (some (51 / 5)) 60).2 =
      ⟨some (51 / 5), some 60⟩ ∧
    (native_value (native_value ⟨some 10, some 0⟩ (some (51 / 5)) 60).2
        (some (51 / 5)) 120).1 = some 0 ∧
    (native_value ⟨some 10, some 0⟩ (some (51 / 5)) 60).1 =
      some (pyRound2 ((51 / 5 - 10) / ((60 - 0) / 3600)))) :=
  ⟨by norm_num, by norm_num,
    power_not_idempotent 10 0 (51 / 5) 60 120 (by norm_num) (by norm_num)⟩

/-- Witness for C7: concrete instantiations of the universally
quantified conjuncts. -/
theorem decode32_unsigned_signed_spec_witness :
    decode32 "U32" 1 2 2 = 32769 ∧
    decode32 "I32" 0xFFFF 0xFFFF 1 = -1 ∧
    decode32 "I32" 0x8000 0 1 < 0 := by
  have h := decode32_unsigned_signed_spec
  refine ⟨?_, ?_, ?_⟩
  · rw [(h.1 1 2 2 (by norm_num)).1]
    have e : (1 <<< 16 ||| 2 : ℕ) = 65538 := by decide
    rw [e]
    norm_num
  · rw [h.2.1 0xFFFF 0xFFFF 1 (by norm_num) (by norm_num)]
    have e : twosComplement32 (65535 <<< 16 ||| 65535) = -1 := by decide
    rw [e]
    norm_num
  · exact h.2.2.1 0x8000 0 (by norm_num) (by norm_num) (by norm_num)

lemma pyDictSet_of_not_mem {κ α : Type} [DecidableEq κ]
    (d : List (κ × α)) (k : κ) (v : α) (h : ∀ p ∈ d, p.1 ≠ k) :
    pyDictSet d k v = d ++ [(k, v)] := by
  unfold pyDictSet
  rw [if_neg]
  simp only [List.any_eq_true, decide_eq_true_eq, not_exists]
  intro p hp
  exact h p hp.1 hp.2

lemma read_all_go_keys (slave : Nat) (client : Nat → Nat → Nat → ReadResult) :
    ∀ (defs : List RegisterDef) (acc : List (String × (SensorValue × String))),
      (∀ d ∈ defs, adequate d (client slave d.addr d.qty)) →
      (∀ d ∈ defs, ∀ p ∈ acc, p.1 ≠ d.key) →
      (defs.map RegisterDef.key).Nodup →
      ∃ m, read_all_go slave client acc defs = Except.ok m ∧
        m.map Prod.fst = acc.map Prod.fst ++
          (defs.filter (fun d => respOk (client slave d.addr d.qty))).map
            RegisterDef.key := by
  intro defs
  induction defs with
  | nil =>
    intro acc _ _ _
    exact ⟨acc, rfl, by simp⟩
  | cons d rest ih =>
    intro acc hadq hdis hnod
    have hadq_rest : ∀ e ∈ rest, adequate e (client slave e.addr e.qty) :=
      fun e he => hadq e (List.mem_cons_of_mem _ he)
    have hnod_rest : (rest.map RegisterDef.key).Nodup :=
      (List.nodup_cons.mp (by simpa using hnod)).2
    have hkey_not : d.key ∉ rest.map RegisterDef.key :=
      (List.nodup_cons.mp (by simpa using hnod)).1
    rcases hr : client slave d.addr d.qty with _ | _ | regs
    · simp only [read_all_go, hr]
      obtain ⟨m, hm, hk⟩ := ih acc hadq_rest
        (fun e he => hdis e (List.mem_cons_of_mem _ he)) hnod_rest
      refine ⟨m, hm, ?_⟩
      rw [hk, List.filter_cons]
      rw [hr]
      simp [respOk]
    · simp only [read_all_go, hr]
      obtain ⟨m, hm, hk⟩ := ih acc hadq_rest
        (fun e he => hdis e (List.mem_cons_of_mem _ he)) hnod_rest
      refine ⟨m, hm, ?_⟩
      rw [hk, List.filter_cons]
      rw [hr]
      simp [respOk]
    · have hdk : ∀ p ∈ acc, p.1 ≠ d.key := hdis d (List.mem_cons_self _ _)
      have hstep : ∀ v : SensorValue × String,
          (∀ e ∈ rest, ∀ p ∈ pyDictSet acc d.key v, p.1 ≠ e.key) := by
        intro v e he p hp
        rw [pyDictSet_of_not_mem acc d.key v hdk] at hp
        rcases List.mem_append.mp hp with hpa | hpn
        · exact hdis e (List.mem_cons_of_mem _ he) p hpa
        · have hpe : p = (d.key, v) := by simpa using hpn
          rw [hpe]
          intro hcontra
          have hck : d.key = e.key := hcontra
          apply hkey_not
          rw [hck]
          exact List.mem_map_of_mem RegisterDef.key he
      have hfilter : (d :: rest).filter
            (fun e => respOk (client slave e.addr e.qty)) =
          d :: rest.filter (fun e => respOk (client slave e.addr e.qty)) := by
        rw [List.filter_cons, hr]
        simp [respOk]
      by_cases hstr : d.rtype = "STR"
      · simp only [read_all_go, hr]
        rw [if_pos hstr]
        obtain ⟨m, hm, hk⟩ := ih
          (pyDictSet acc d.key
            (SensorValue.str (pyDecodeStr (regs.flatMap
              (fun r => [(r >>> 8) &&& 0xFF, r &&& 0xFF]))), d.unit))
          hadq_rest (hstep _) hnod_rest
        refine ⟨m, hm, ?_⟩
        rw [hk, pyDictSet_of_not_mem acc d.key _ hdk, hfilter]
        simp
      · have hlen : 2 ≤ regs.length := by
          have := hadq d (List.mem_cons_self _ _)
          rw [hr] at this
          exact this.resolve_left hstr
        rcases regs with _ | ⟨w0, regs1⟩
        · simp at hlen
        rcases regs1 with _ | ⟨w1, regs2⟩
        · simp at hlen
        simp only [read_all_go, hr]
        rw [if_neg hstr]
        obtain ⟨m, hm, hk⟩ := ih
          (pyDictSet acc d.key
            (SensorValue.num (decode32 d.rtype w0 w1 d.gain), d.unit))
          hadq_rest (hstep _) hnod_rest
        refine ⟨m, hm, ?_⟩
        rw [hk, pyDictSet_of_not_mem acc d.key _ hdk, hfilter]
        simp

/-- C1 fails on the code: with every register read succeeding, the
cycle's result map is keyed by the bare register keys of the catalog —
no key carries a `_{slaveAddress}` suffix and no `instant_power_*`
entry exists in the map (the coordinator reads only the single
configured slave, and the derived power lives in a separate sensor). -/
theorem read_all_plain_keys_counterexample :
    keysOf (read_all 82 REGISTER_DEFS clientAll) =
      ["offering_name", "esn", "software_version", "rated_power",
       "charger_model", "bluetooth_name", "phase_a_voltage",
       "phase_b_voltage", "phase_c_voltage", "total_energy",
       "charger_temp"] ∧
    "rated_power_82" ∉ keysOf (read_all 82 REGISTER_DEFS clientAll) ∧
    "total_energy_82" ∉ keysOf (read_all 82 REGISTER_DEFS clientAll) ∧
    "instant_power_82" ∉ keysOf (read_all 82 REGISTER_DEFS clientAll) := by
  decide

/-- C1 amended: each polling cycle issues one holding-register read per
RegisterDefinition against the single configured slave address, and
when every read succeeds the result map holds exactly one entry per
catalog register, keyed by the bare register key in catalog order; the
derived power is not an entry of this map. -/
theorem read_all_plain_keys_amended (slave : Nat)
    (client : Nat → Nat → Nat → ReadResult)
    (hok : ∀ d ∈ REGISTER_DEFS, ∃ regs,
      client slave d.addr d.qty = ReadResult.ok regs ∧
      (d.rtype = "STR" ∨ 2 ≤ regs.length)) :
    ∃ m, read_all slave REGISTER_DEFS client = Except.ok m ∧
      m.map Prod.fst = REGISTER_DEFS.map RegisterDef.key := by
  have hnod : (REGISTER_DEFS.map RegisterDef.key).Nodup := by decide
  have hadq : ∀ d ∈ REGISTER_DEFS, adequate d (client slave d.addr d.qty) := by
    intro d hd
    obtain ⟨regs, hcl, hshape⟩ := hok d hd
    rw [hcl]
    exact hshape
  obtain ⟨m, hm, hkeys⟩ := read_all_go_keys slave client REGISTER_DEFS []
    hadq (fun d _ p hp => absurd hp (List.not_mem_nil p)) hnod
  refine ⟨m, hm, ?_⟩
  rw [hkeys]
  simp only [List.map_nil, List.nil_append]
  congr 1
  rw [List.filter_eq_self]
  intro d hd
  obtain ⟨regs, hcl, _⟩ := hok d hd
  rw [hcl]
  rfl

/-- Witness for C1's amended theorem with an all-succeeding client. -/
theorem read_all_plain_keys_amended_witness :
    ∃ m, read_all 82 REGISTER_DEFS clientAll = Except.ok m ∧
      m.map Prod.fst = REGISTER_DEFS.map RegisterDef.key := by
  apply read_all_plain_keys_amended 82 clientAll
  intro d hd
  refine ⟨List.replicate d.qty 0, rfl, ?_⟩
  rw [List.length_replicate]
  have hq : ∀ d ∈ REGISTER_DEFS, d.rtype = "STR" ∨ 2 ≤ d.qty := by decide
  exact hq d hd

/-- C6: if the read of one catalog register fails with a transport
error or a Modbus error response while every other register's read
succeeds, the cycle still succeeds and its result map holds exactly the
other registers' keys, omitting only the failed register's key. -/
theorem read_all_single_failure_spec (fd : RegisterDef) (slave : Nat)
    (client : Nat → Nat → Nat → ReadResult) (hfd : fd ∈ REGISTER_DEFS)
    (hfail : client slave fd.addr fd.qty = ReadResult.ioErr ∨
      client slave fd.addr fd.qty = ReadResult.modbusErr)
    (hok : ∀ d ∈ REGISTER_DEFS, d.key ≠ fd.key →
      ∃ regs, client slave d.addr d.qty = ReadResult.ok regs ∧
        (d.rtype = "STR" ∨ 2 ≤ regs.length)) :
    ∃ m, read_all slave REGISTER_DEFS client = Except.ok m ∧
      m.map Prod.fst =
        (REGISTER_DEFS.filter (fun d => d.key != fd.key)).map
          RegisterDef.key := by
  have hkeyinfo : ∀ d ∈ REGISTER_DEFS, ∀ e ∈ REGISTER_DEFS, d.key = e.key →
      d.addr = e.addr ∧ d.qty = e.qty := by decide
  have hnod : (REGISTER_DEFS.map RegisterDef.key).Nodup := by decide
  have hadq : ∀ d ∈ REGISTER_DEFS, adequate d (client slave d.addr d.qty) := by
    intro d hd
    by_cases hk : d.key = fd.key
    · obtain ⟨ha, hq⟩ := hkeyinfo d hd fd hfd hk
      rw [ha, hq]
      rcases hfail with hf | hf <;> rw [hf] <;> exact trivial
    · obtain ⟨regs, hcl, hshape⟩ := hok d hd hk
      rw [hcl]
      exact hshape
  obtain ⟨m, hm, hkeys⟩ := read_all_go_keys slave client REGISTER_DEFS []
    hadq (fun d _ p hp => absurd hp (List.not_mem_nil p)) hnod
  refine ⟨m, hm, ?_⟩
  rw [hkeys]
  simp only [List.map_nil, List.nil_append]
  congr 1
  apply List.filter_congr
  intro d hd
  by_cases hk : d.key = fd.key
  · obtain ⟨ha, hq⟩ := hkeyinfo d hd fd hfd hk
    rw [ha, hq]
    rcases hfail with hf | hf <;> rw [hf] <;> simp [respOk, hk]
  · obtain ⟨regs, hcl, _⟩ := hok d hd hk
    rw [hcl]
    simp [respOk, hk]

/-- Witness for C6 with the `rated_power` read failing and all other
reads succeeding. -/
theorem read_all_single_failure_spec_witness :
    ∃ m, read_all 82 REGISTER_DEFS clientC6 = Except.ok m ∧
      m.map Prod.fst =
        (REGISTER_DEFS.filter (fun d =>
          d.key != (⟨"rated_power", "Rated power", 30076, 2, "U32", 10,
            "kW"⟩ : RegisterDef).key)).map RegisterDef.key := by
  apply read_all_single_failure_spec
    ⟨"rated_power", "Rated power", 30076, 2, "U32", 10, "kW"⟩ 82 clientC6
    (by decide) (Or.inr rfl)
  intro d hd hne
  refine ⟨List.replicate d.qty 0, ?_, ?_⟩
  · have haddr : ∀ e ∈ REGISTER_DEFS, e.key ≠ "rated_power" →
        e.addr ≠ 30076 := by decide
    simp [clientC6, haddr d hd hne]
  · rw [List.length_replicate]
    have hq : ∀ e ∈ REGISTER_DEFS, e.rtype = "STR" ∨ 2 ≤ e.qty := by decide
    exact hq d hd

lemma decode32_of_ne_i32 (rtype : String) (w0 w1 : Nat) (g : ℚ)
    (h : rtype ≠ "I32") :
    decode32 rtype w0 w1 g = decode32 "U32" w0 w1 g := by
  simp [decode32, h]

/-- C8 fails on the code: a register declared with the unknown value
type `"F32"` does not fail with a `DecodeError` and is not omitted —
its block is silently decoded as UNSIGNED32 and its key is present in
the cycle's result. -/
theorem unknown_rtype_counterexample :
    read_all 82 [unknownTypeDef] clientF32 =
      Except.ok [("mystery", (SensorValue.num 100000, ""))] := by
  simp [read_all, read_all_go, unknownTypeDef, clientF32, decode32, pyDictSet]

/-- C8 amended: a register whose declared value type is not `"STR"` is
decoded numerically from its first two words, and every type other than
`"I32"` is treated exactly as UNSIGNED32; the register's key stays
present in the cycle's result — no decode failure path exists. -/
theorem unknown_rtype_amended (d : RegisterDef) (slave w0 w1 : Nat)
    (client : Nat → Nat → Nat → ReadResult)
    (hstr : d.rtype ≠ "STR") (hi32 : d.rtype ≠ "I32")
    (hcl : client slave d.addr d.qty = ReadResult.ok [w0, w1]) :
    read_all slave [d] client =
      Except.ok [(d.key,
        (SensorValue.num (decode32 "U32" w0 w1 d.gain), d.unit))] := by
  unfold read_all
  simp only [read_all_go, hcl]
  rw [if_neg hstr]
  rw [decode32_of_ne_i32 d.rtype w0 w1 d.gain hi32]
  simp [read_all_go, pyDictSet]

/-- Witness for C8's amended theorem on the `"F32"` register. -/
theorem unknown_rtype_amended_witness :
    read_all 82 [unknownTypeDef] clientF32 =
      Except.ok [("mystery",
        (SensorValue.num (decode32 "U32" 1 0x86A0 1), ""))] :=
  unknown_rtype_amended unknownTypeDef 82 1 0x86A0 clientF32
    (by decide) (by decide) rfl
